import Mathlib

/-!
Verification of `discord-notification-emailer` (`bot.py` and the batching
buffer `clusterer.ClusterManager` it drives).

The repository ships `bot.py`; the `clusterer` module it imports holds the
debounced batching buffer (the core of the spec).  That module's code is not
in the repository snapshot, so the buffer is modelled from the spec (section
4.1 of `spec.md`), in two complementary views:

* an untimed step semantics (`bufStep` / `bufRun`): the producer's `append`
  calls and timer firings interleave arbitrarily; a firing timer carries the
  generation it was armed with and is inert when stale, and a firing with an
  empty pending batch delivers nothing;
* a timed deterministic semantics (`runAux` / `run`): appends carry a
  timestamp, each append re-arms the deadline to `t + D`, and the armed
  deadline fires as soon as it precedes (or, resolving the race the way the
  spec permits, coincides with) the next append.

Everything else (`on_message`, `send_email`, the HTML helpers, `configuration`
and `main`'s Emailer construction) is embedded directly from `bot.py`.
-/

/-- Modelled from the spec: the state of `clusterer.ClusterManager`
(`{pending: Batch, timer: optional scheduled-callback handle}` plus the
construction-time window).  `gen` counts arm cycles; `armed` holds the
generation of the currently armed timer, `none` when no timer is armed. -/
structure ClusterManager (α : Type) where
  window : Int
  pending : List α
  gen : Nat
  armed : Option Nat
deriving DecidableEq

/-- The initial (IDLE) state of a buffer constructed with window `w`. -/
def initCM (α : Type) (w : Int) : ClusterManager α :=
  ⟨w, [], 0, Option.none⟩

/-- Modelled from the spec: construction `new(window, onFlush)` where
"`window` must be a positive duration" and "non-positive window duration —
fails fast at construction time". -/
def mkClusterManager (α : Type) (window : Int) : Except String (ClusterManager α) :=
  if window ≤ 0 then Except.error "window must be a positive duration"
  else Except.ok (initCM α window)

/-- An event the buffer can experience: a producer `append`, or the timer
armed at generation `g` attempting to fire. -/
inductive BufEvent (α : Type) where
  | append (x : α)
  | fire (g : Nat)
deriving DecidableEq

/-- Modelled from the spec: one transition of the buffer.  `append` extends
the pending batch and (re)arms a fresh timer generation; a `fire` whose
generation is not the armed one is inert (stale timers "must be inert,
whether by cancellation or by a generation/sequence check"); a live fire with
a non-empty pending batch swaps it out and delivers it, and with an empty one
does nothing.  Returns the next state and the batch delivered to `onFlush`,
if any. -/
def bufStep {α : Type} (s : ClusterManager α) :
    BufEvent α → ClusterManager α × Option (List α)
  | BufEvent.append x =>
      (⟨s.window, s.pending ++ [x], s.gen + 1, Option.some (s.gen + 1)⟩, Option.none)
  | BufEvent.fire g =>
      if s.armed = Option.some g then
        if s.pending.isEmpty then (s, Option.none)
        else (⟨s.window, [], s.gen, Option.none⟩, Option.some s.pending)
      else (s, Option.none)

/-- Run the buffer over a list of interleaved events, collecting the batches
delivered to `onFlush` in delivery order. -/
def bufRun {α : Type} (s : ClusterManager α) :
    List (BufEvent α) → ClusterManager α × List (List α)
  | [] => (s, [])
  | e :: es =>
      let step := bufStep s e
      let rest := bufRun step.1 es
      (rest.1, step.2.toList ++ rest.2)

/-- The items appended along an event trace, in arrival order. -/
def appendedItems {α : Type} : List (BufEvent α) → List α
  | [] => []
  | BufEvent.append x :: es => x :: appendedItems es
  | BufEvent.fire _ :: es => appendedItems es

/-- Modelled from the spec: the timed view of the buffer.  `pending` is the
current batch, `deadline` the armed flush time.  Appends arrive as `(t, x)`
pairs in time order; an armed deadline `d ≤ t` fires before the append at `t`
(at `d = t` the timer wins the race, one of the two resolutions the spec
allows), delivering `pending` when non-empty; otherwise the append joins the
batch.  Every append re-arms the deadline to `t + D`.  After the last append
the outstanding deadline fires.  Returns `(flushTime, batch)` pairs. -/
def runAux {α : Type} (D : Nat) (pending : List α) (deadline : Option Nat) :
    List (Nat × α) → List (Nat × List α)
  | [] =>
      match deadline with
      | Option.some d => if pending.isEmpty then [] else [(d, pending)]
      | Option.none => []
  | (t, x) :: rest =>
      match deadline with
      | Option.some d =>
          if d ≤ t then
            (if pending.isEmpty then [] else [(d, pending)])
              ++ runAux D [x] (Option.some (t + D)) rest
          else runAux D (pending ++ [x]) (Option.some (t + D)) rest
      | Option.none => runAux D [x] (Option.some (t + D)) rest

/-- The deliveries produced by a buffer with window `D` from timed appends,
starting idle. -/
def run {α : Type} (D : Nat) (appends : List (Nat × α)) : List (Nat × List α) :=
  runAux D [] Option.none appends

/-- `gapsLT D t apps = true` when every consecutive gap in the timed appends
`apps` (starting after an append at time `t`) is strictly below `D`. -/
def gapsLT {α : Type} (D : Nat) : Nat → List (Nat × α) → Bool
  | _, [] => true
  | t, (u, _) :: rest => decide (u < t + D) && gapsLT D u rest

/-- The time of the last append of `apps`, or `t` when there is none. -/
def lastAppendTime {α : Type} (t : Nat) : List (Nat × α) → Nat
  | [] => t
  | (u, _) :: rest => lastAppendTime u rest

/-- A Discord user as `bot.py` uses it: only `name` is read (for headers);
`id` carries object identity, since `discord.py` compares users by id. -/
structure User where
  id : Nat
  name : String
deriving DecidableEq

/-- A Discord channel as `bot.py` uses it: only `name` is read. -/
structure Channel where
  id : Nat
  name : String
deriving DecidableEq

/-- A Discord message as `bot.py` reads it.  `created_at` is the localized
rendering `dt.replace(tzinfo=utc).astimezone(tz=None).strftime("%H:%M on %b %d")`
that `_format_header` produces; the timezone arithmetic itself depends on the
host environment, so the message carries its rendered form. -/
structure Message where
  author : User
  channel : Channel
  created_at : String
  clean_content : String
deriving DecidableEq

/-- `EmailerBot._format_message`: `f'<p>{message.clean_content}</p>'`. -/
def EmailerBot.format_message (message : Message) : String :=
  "<p>" ++ message.clean_content ++ "</p>"

/-- `EmailerBot._format_header`: the `<br><h2>user (channel)</h2><span …>`
block, with `date` the localized timestamp carried by the message. -/
def EmailerBot.format_header (user : User) (channel : Channel) (date : String) : String :=
  "<br><h2>" ++ user.name ++ " (" ++ channel.name ++ ")</h2>"
    ++ "<span class=\"date\">" ++ date ++ "</span>"

/-- `EmailerBot._end_html`. -/
def EmailerBot.end_html : String := "</body></html>"

/-- The html `EmailerBot._start_html` returns once the stylesheet content
`style` has been read: `f'<html><head><style>{style}</style></head><body>'`
with newlines stripped from the stylesheet. -/
def EmailerBot.start_html (style : String) : String :=
  "<html><head><style>" ++ style.replace "\n" "" ++ "</style></head><body>"

/-- A Python exception surfaced by the embedded `_start_html`. -/
inductive PyExc where
  | ioError (path : String)
deriving DecidableEq

/-- Reading a successfully opened file yields its content.  The program's
`except IOError` clause guards exactly this step (the `try` is inside the
`with`), so the branch it guards is visible in `EmailerBot.start_html_run`. -/
def readOpened (content : String) : Except PyExc String :=
  Except.ok content

/-- `EmailerBot._start_html` with the file system made explicit: `fs` maps a
path to its content, `none` when the file is missing.  `open(style_loc)` sits
outside the `try`, so a missing file raises out of the function; inside the
`with`, `stylesheet.read()` is guarded by `except IOError`, whose handler
logs the CSS warning and leaves `style` empty.  The returned flag records
whether that warning was logged. -/
def EmailerBot.start_html_run (style_loc : String) (fs : String → Option String) :
    Except PyExc (String × Bool) :=
  match fs style_loc with
  | Option.none => Except.error (PyExc.ioError style_loc)
  | Option.some content =>
      match readOpened content with
      | Except.ok text => Except.ok (EmailerBot.start_html text, false)
      | Except.error _ => Except.ok (EmailerBot.start_html "", true)

/-- The body loop of `EmailerBot.send_email`: `author_channel` starts as the
sentinel `("", "")`, which no `(discord.User, discord.Channel)` pair ever
equals, so it is embedded as an `Option` that starts `none`; a header is
emitted whenever `(message.author, message.channel)` differs from the
accumulator, which is then updated to the current pair. -/
def bodyLoop : Option (User × Channel) → List Message → String
  | _, [] => ""
  | prev, m :: rest =>
      (if Option.some (m.author, m.channel) = prev then ""
       else EmailerBot.format_header m.author m.channel m.created_at)
        ++ EmailerBot.format_message m
        ++ bodyLoop (Option.some (m.author, m.channel)) rest

/-- The distinct channel names of a batch:
`set([msg.channel.name for msg in messages])`.  Python set iteration order is
unspecified; it is embedded as `List.dedup` (one fixed order of the distinct
names), which is all `", ".join(channels)` relies on. -/
def channelsOf (messages : List Message) : List String :=
  (messages.map fun m => m.channel.name).dedup

/-- The subject line of `EmailerBot.send_email`:
`f'{len(messages)} New Messages from Discord ({", ".join(channels)})'`. -/
def subjectOf (messages : List Message) : String :=
  toString messages.length ++ " New Messages from Discord ("
    ++ String.intercalate ", " (channelsOf messages) ++ ")"

/-- `EmailerBot.send_email` given the stylesheet content `css`: the
`(subject, content)` pair handed to `self.emailer.send_email`. -/
def EmailerBot.send_email (css : String) (messages : List Message) : String × String :=
  (subjectOf messages,
   EmailerBot.start_html css ++ bodyLoop Option.none messages ++ EmailerBot.end_html)

/-- `EmailerBot.send_email` with the stylesheet read through `fs` as the real
method does (it calls `self._start_html()` on `style.css`): an exception from
`_start_html` propagates out of `send_email`. -/
def EmailerBot.send_email_run (fs : String → Option String) (messages : List Message) :
    Except PyExc (String × String) :=
  match EmailerBot.start_html_run "style.css" fs with
  | Except.error e => Except.error e
  | Except.ok pr =>
      Except.ok (subjectOf messages,
        pr.1 ++ bodyLoop Option.none messages ++ EmailerBot.end_html)

/-- `EmailerBot.on_message`: `self.cluster_manager.append(message)` — a single
append of the message to the buffer, nothing else. -/
def EmailerBot.on_message {α : Type} (s : ClusterManager α) (message : α) :
    ClusterManager α × Option (List α) :=
  bufStep s (BufEvent.append message)

/-- Feeding a stream of inbound messages through `on_message`, one call per
event in delivery order. -/
def processMessages {α : Type} (s : ClusterManager α) (msgs : List α) : ClusterManager α :=
  msgs.foldl (fun st m => (EmailerBot.on_message st m).1) s

/-- `EmailerBot.__init__` as far as the buffer is concerned: it passes
`clustering_period` (default 60) unchanged to `clusterer.ClusterManager`. -/
def EmailerBot.init (α : Type) (clustering_period : Int := 60) :
    Except String (ClusterManager α) :=
  mkClusterManager α clustering_period

/-- A value of the dict `configuration` returns: Python `None`, a string, or
the parsed clustering period. -/
inductive ConfigValue where
  | none
  | str (s : String)
  | int (n : Int)
deriving DecidableEq

/-- Lift an optional string into a `ConfigValue` the way
`section.get(option)` does (absent option ↦ `None`). -/
def ofOption : Option String → ConfigValue
  | Option.none => ConfigValue.none
  | Option.some s => ConfigValue.str s

/-- The `[Email]` section of the config file once parsed: `to` is read with
`[]` (so the section must supply it), the rest with `.get` (optional).
The `to` key's value is named `to_addr` here. -/
structure EmailSection where
  to_addr : String
  smtp_username : Option String
  smtp_server : Option String
  smtp_port : Option String
  smtp_password : Option String
deriving DecidableEq

/-- `config['period'] = int(clustering_config.get('clustering_period', 60))`:
the fallback 60 is used when the option is absent; `clustering_period` here
is the already-parsed integer value of the option when present. -/
def configurationPeriod (clustering_period : Option Int) : Int :=
  clustering_period.getD 60

/-- The dict built by `configuration`, as an association list so that the
`'smtp_username' in config` test in `main` keeps its meaning.  Every
assignment in the function inserts its key unconditionally. -/
def configuration (email : EmailSection) (clustering_period : Option Int)
    (discord_key : Option String) : List (String × ConfigValue) :=
  [("to", ConfigValue.str email.to_addr),
   ("smtp_username", ofOption email.smtp_username),
   ("smtp_server", ofOption email.smtp_server),
   ("smtp_port", ofOption email.smtp_port),
   ("smtp_password", ofOption email.smtp_password),
   ("period", ConfigValue.int (configurationPeriod clustering_period)),
   ("key", ofOption discord_key)]

/-- The `'smtp_username' in config` membership test. -/
def hasKey (config : List (String × ConfigValue)) (k : String) : Bool :=
  config.any fun p => p.1 == k

/-- `config[k]` lookup; the keys `main` reads are always present. -/
def getVal (config : List (String × ConfigValue)) (k : String) : ConfigValue :=
  ((config.find? fun p => p.1 == k).map Prod.snd).getD ConfigValue.none

/-- Which `email_tools.Emailer` constructor call `main` makes. -/
inductive EmailerCall where
  | fourArgs (server port username password : ConfigValue)
  | oneArg (server : ConfigValue)
deriving DecidableEq

/-- The Emailer construction in `main`: the four-argument call when
`'smtp_username' in config`, the bare-server call otherwise. -/
def mainEmailer (config : List (String × ConfigValue)) : EmailerCall :=
  if hasKey config "smtp_username" then
    EmailerCall.fourArgs (getVal config "smtp_server") (getVal config "smtp_port")
      (getVal config "smtp_username") (getVal config "smtp_password")
  else EmailerCall.oneArg (getVal config "smtp_server")

/-- String concatenation of a list of segments, front to back. -/
def joinStr : List String → String
  | [] => ""
  | s :: rest => s ++ joinStr rest

/-- The claim-side description of the email body's segments: message `i` is
rendered as `<p>clean_content</p>`, preceded by a header exactly when `i` is
the first message or its `(author, channel)` differs from message `i-1`'s.
Stated by pairing each message with its predecessor's key (the first with
`prev`). -/
def segsSpec (prev : Option (User × Channel)) (msgs : List Message) : List String :=
  (msgs.zip (prev :: msgs.map fun m => Option.some (m.author, m.channel))).map
    fun pr =>
      (if Option.some (pr.1.author, pr.1.channel) = pr.2 then ""
       else EmailerBot.format_header pr.1.author pr.1.channel pr.1.created_at)
        ++ EmailerBot.format_message pr.1

/-- A sample inbound message used to exercise the embedded operations on a
concrete input. -/
def sampleMsg : Message :=
  ⟨⟨1, "alice"⟩, ⟨7, "general"⟩, "12:00 on Oct 12", "hi"⟩

/-- Along any event trace, the batches delivered so far followed by the still
pending batch are exactly the starting pending batch followed by the appended
items: nothing is lost, duplicated, or reordered. -/
theorem bufRun_items {α : Type} (evts : List (BufEvent α)) :
    ∀ s : ClusterManager α,
      ((bufRun s evts).2).flatten ++ (bufRun s evts).1.pending
        = s.pending ++ appendedItems evts := by
  induction evts with
  | nil => intro s; simp [bufRun, appendedItems]
  | cons e es ih =>
    intro s
    cases e with
    | append x => simp [bufRun, bufStep, appendedItems, ih]
    | fire g =>
      by_cases h1 : s.armed = Option.some g <;> by_cases h2 : s.pending.isEmpty <;>
        simp [bufRun, bufStep, h1, h2, appendedItems, ih]

/-- Every batch the buffer delivers along any event trace is non-empty: a
timer firing over an empty pending batch delivers nothing. -/
theorem bufRun_nonempty {α : Type} (evts : List (BufEvent α)) :
    ∀ (s : ClusterManager α) (b : List α), b ∈ (bufRun s evts).2 → b ≠ [] := by
  induction evts with
  | nil => intro s b hb; simp [bufRun] at hb
  | cons e es ih =>
    intro s b hb
    cases e with
    | append x =>
      simp only [bufRun, bufStep, Option.toList_none, List.nil_append] at hb
      exact ih _ b hb
    | fire g =>
      by_cases h1 : s.armed = Option.some g
      · by_cases h2 : s.pending.isEmpty
        · simp only [bufRun, bufStep, h1, h2, if_true, Option.toList_none,
            List.nil_append] at hb
          exact ih _ b hb
        · simp only [bufRun, bufStep, h1, h2, if_true, if_false, Bool.false_eq_true,
            Option.toList_some, List.singleton_append, List.mem_cons] at hb
          rcases hb with hb | hb
          · subst hb; exact fun hnil => h2 (by simp [hnil])
          · exact ih _ b hb
      · simp only [bufRun, bufStep, h1, if_false, Option.toList_none,
          List.nil_append] at hb
        exact ih _ b hb

/-- A trace with no appends delivers nothing and leaves the pending batch
empty, provided it starts empty. -/
theorem bufRun_idle {α : Type} (evts : List (BufEvent α)) :
    ∀ s : ClusterManager α, s.pending = [] → appendedItems evts = [] →
      (bufRun s evts).2 = [] ∧ (bufRun s evts).1.pending = [] := by
  induction evts with
  | nil => intro s hp _; exact ⟨rfl, hp⟩
  | cons e es ih =>
    intro s hp ha
    cases e with
    | append x => simp [appendedItems] at ha
    | fire g =>
      simp only [appendedItems] at ha
      by_cases h1 : s.armed = Option.some g
      · have h2 : s.pending.isEmpty := by simp [hp]
        simpa [bufRun, bufStep, h1, h2] using ih s hp ha
      · simpa [bufRun, bufStep, h1] using ih s hp ha

/-- Every flush the timed buffer performs happens at the carried deadline or
at `u + D` for `u` the time of one of the appends: flush times are exactly
"window after some append". -/
theorem runAux_flushTimes {α : Type} (D : Nat) (apps : List (Nat × α)) :
    ∀ (p : List α) (dl : Option Nat) (f : Nat) (b : List α),
      (f, b) ∈ runAux D p dl apps →
      (∃ d, dl = Option.some d ∧ f = d) ∨ ∃ u y, (u, y) ∈ apps ∧ f = u + D := by
  induction apps with
  | nil =>
    intro p dl f b hm
    cases dl with
    | none => simp [runAux] at hm
    | some d =>
      by_cases h2 : p.isEmpty
      · simp [runAux, h2] at hm
      · simp only [runAux, h2, Bool.false_eq_true, if_false, List.mem_singleton,
          Prod.mk.injEq] at hm
        exact Or.inl ⟨d, rfl, hm.1⟩
  | cons a rest ih =>
    obtain ⟨t, x⟩ := a
    intro p dl f b hm
    cases dl with
    | none =>
      simp only [runAux] at hm
      rcases ih [x] (Option.some (t + D)) f b hm with ⟨d, hd, hf⟩ | ⟨u, y, hu, hf⟩
      · refine Or.inr ⟨t, x, List.mem_cons_self _ _, ?_⟩
        cases hd; exact hf
      · exact Or.inr ⟨u, y, List.mem_cons_of_mem _ hu, hf⟩
    | some d =>
      by_cases hle : d ≤ t
      · simp only [runAux, hle, if_true, List.mem_append] at hm
        rcases hm with hm | hm
        · by_cases h2 : p.isEmpty
          · simp [h2] at hm
          · simp only [h2, Bool.false_eq_true, if_false, List.mem_singleton,
              Prod.mk.injEq] at hm
            exact Or.inl ⟨d, rfl, hm.1⟩
        · rcases ih [x] (Option.some (t + D)) f b hm with ⟨d2, hd, hf⟩ | ⟨u, y, hu, hf⟩
          · refine Or.inr ⟨t, x, List.mem_cons_self _ _, ?_⟩
            cases hd; exact hf
          · exact Or.inr ⟨u, y, List.mem_cons_of_mem _ hu, hf⟩
      · simp only [runAux, hle, if_false] at hm
        rcases ih (p ++ [x]) (Option.some (t + D)) f b hm with ⟨d2, hd, hf⟩ | ⟨u, y, hu, hf⟩
        · refine Or.inr ⟨t, x, List.mem_cons_self _ _, ?_⟩
          cases hd; exact hf
        · exact Or.inr ⟨u, y, List.mem_cons_of_mem _ hu, hf⟩

/-- A burst whose consecutive gaps are all below the window coalesces: from a
non-empty pending batch armed at `t + D`, the whole run delivers exactly one
batch, `D` after the burst's last append. -/
theorem runAux_burst {α : Type} (D : Nat) (apps : List (Nat × α)) :
    ∀ (p : List α) (t : Nat), p ≠ [] → gapsLT D t apps = true →
      runAux D p (Option.some (t + D)) apps
        = [(lastAppendTime t apps + D, p ++ apps.map Prod.snd)] := by
  induction apps with
  | nil =>
    intro p t hp _
    have h2 : p.isEmpty = false := by
      cases p with
      | nil => exact absurd rfl hp
      | cons y ys => rfl
    simp [runAux, lastAppendTime, h2]
  | cons a rest ih =>
    obtain ⟨u, x⟩ := a
    intro p t hp hg
    simp only [gapsLT, Bool.and_eq_true, decide_eq_true_eq] at hg
    obtain ⟨hlt, hg2⟩ := hg
    have hnle : ¬ (t + D ≤ u) := by omega
    simp only [runAux, hnle, if_false, lastAppendTime]
    rw [ih (p ++ [x]) u (by simp) hg2]
    simp

/-- Feeding messages through `on_message` one by one extends the pending
batch by exactly those messages, in delivery order. -/
theorem processMessages_pending {α : Type} (msgs : List α) :
    ∀ s : ClusterManager α, (processMessages s msgs).pending = s.pending ++ msgs := by
  induction msgs with
  | nil => intro s; simp [processMessages]
  | cons m rest ih =>
    intro s
    have h := ih ⟨s.window, s.pending ++ [m], s.gen + 1, Option.some (s.gen + 1)⟩
    simp only [processMessages, List.foldl_cons, EmailerBot.on_message, bufStep] at h ⊢
    rw [h]
    simp

/-- The `send_email` body loop produces exactly the segment list described
message-by-message: the loop accumulator equals the predecessor's
`(author, channel)` key at every step. -/
theorem bodyLoop_eq_segsSpec (msgs : List Message) :
    ∀ prev : Option (User × Channel),
      bodyLoop prev msgs = joinStr (segsSpec prev msgs) := by
  induction msgs with
  | nil => intro prev; simp [bodyLoop, segsSpec, joinStr]
  | cons m rest ih =>
    intro prev
    simp only [bodyLoop, segsSpec, List.map_cons, List.zip_cons_cons, List.map_cons,
      List.map, joinStr]
    rw [ih (Option.some (m.author, m.channel))]
    simp only [segsSpec]
    by_cases h : Option.some (m.author, m.channel) = prev <;>
      simp [h, String.append_assoc, List.zip]

/-- C1: for every finite event trace — `append` calls interleaved arbitrarily
with timer firings — the concatenation of the batches delivered to `onFlush`,
in delivery order, followed by the items still pending when the trace ends
(those the process would deliver later, "unless the process terminates
first") equals the full append sequence: every appended item sits in exactly
one place, at the position implied by arrival order, with no reordering,
loss, or duplication. -/
theorem c1_ordering_exactly_once {α : Type} (w : Int) (evts : List (BufEvent α)) :
    ((bufRun (initCM α w) evts).2).flatten ++ (bufRun (initCM α w) evts).1.pending
      = appendedItems evts :=
  by simpa [initCM] using bufRun_items evts (initCM α w)

/-- C2: under every interleaving of appends and timer firings, every batch
handed to `onFlush` is non-empty, and a trace in which nothing was appended
delivers no batch at all. -/
theorem c2_no_empty_flush {α : Type} (w : Int) (evts : List (BufEvent α)) :
    (∀ b ∈ (bufRun (initCM α w) evts).2, b ≠ []) ∧
      (appendedItems evts = [] → (bufRun (initCM α w) evts).2 = []) :=
  ⟨fun b hb => bufRun_nonempty evts _ b hb,
   fun ha => (bufRun_idle evts _ rfl ha).1⟩

theorem c2_witness :
    appendedItems ([BufEvent.fire 0, BufEvent.fire 3] : List (BufEvent Nat)) = [] ∧
      (bufRun (initCM Nat 60) [BufEvent.fire 0, BufEvent.fire 3]).2 = [] :=
  ⟨rfl, (c2_no_empty_flush 60 [BufEvent.fire 0, BufEvent.fire 3]).2 rfl⟩

/-- C3: a non-positive clustering period is rejected with an error at
construction time, both when handed directly to `EmailerBot.__init__` (which
passes it through to `ClusterManager`) and when it is the parsed
`clustering_period` of the configuration file; no buffer is created. -/
theorem c3_nonpositive_window_rejected (p : Int) (hp : p ≤ 0) :
    EmailerBot.init Nat p = Except.error "window must be a positive duration" ∧
      mkClusterManager Nat (configurationPeriod (Option.some p))
        = Except.error "window must be a positive duration" := by
  constructor <;> simp [EmailerBot.init, mkClusterManager, configurationPeriod, hp]

theorem c3_witness :
    ((-5 : Int) ≤ 0) ∧
      (EmailerBot.init Nat (-5) = Except.error "window must be a positive duration" ∧
        mkClusterManager Nat (configurationPeriod (Option.some (-5)))
          = Except.error "window must be a positive duration") :=
  ⟨by decide, c3_nonpositive_window_rejected (-5) (by decide)⟩

/-- C4: an append at time `t` before the armed deadline `d` has been reached
cancels the pending flush — the run continues with no delivery at `d`, the
item joined to the batch, and the timer re-armed to fire at `t + D` — and
every flush the buffer ever performs happens exactly `D` after one of the
appends, so no batch flushes until the window has elapsed since the latest
append. -/
theorem c4_append_cancels_and_rearms {α : Type} (D d t : Nat) (x : α) (p : List α)
    (rest apps : List (Nat × α)) (h : t < d) :
    runAux D p (Option.some d) ((t, x) :: rest)
        = runAux D (p ++ [x]) (Option.some (t + D)) rest ∧
      ∀ f b, (f, b) ∈ run D apps → ∃ u y, (u, y) ∈ apps ∧ f = u + D := by
  constructor
  · have hnle : ¬ d ≤ t := by omega
    simp [runAux, hnle]
  · intro f b hm
    rcases runAux_flushTimes D apps [] Option.none f b (by simpa [run] using hm) with
      ⟨d2, hd, _⟩ | h2
    · cases hd
    · exact h2

theorem c4_witness :
    10 < 60 ∧
      (runAux 60 [0] (Option.some 60) [(10, 1)]
          = runAux 60 ([0] ++ [1]) (Option.some (10 + 60)) [] ∧
        ∀ f b, (f, b) ∈ run 60 [((0 : Nat), (5 : Nat))] →
          ∃ u y, (u, y) ∈ [((0 : Nat), (5 : Nat))] ∧ f = u + 60) :=
  ⟨by decide, c4_append_cancels_and_rearms 60 60 10 1 [0] [] [(0, 5)] (by decide)⟩

/-- C5: a run of appends whose consecutive gaps are all strictly below the
window is delivered as exactly one batch, `D` after the last append of the
run; in particular with `D = 60` and appends at `t = 0, 10, 80` the buffer
delivers exactly `[item0, item10]` at `t = 70` and `[item80]` at `t = 140`. -/
theorem c5_burst_single_batch {α : Type} (D t0 : Nat) (x0 : α)
    (rest : List (Nat × α)) (hg : gapsLT D t0 rest = true) :
    run D ((t0, x0) :: rest)
        = [(lastAppendTime t0 rest + D, x0 :: rest.map Prod.snd)] ∧
      run 60 [((0 : Nat), (0 : Nat)), (10, 1), (80, 2)] = [(70, [0, 1]), (140, [2])] := by
  constructor
  · show runAux D [] Option.none ((t0, x0) :: rest) = _
    simp only [runAux]
    rw [runAux_burst D rest [x0] t0 (by simp) hg]
    simp
  · rfl

theorem c5_witness :
    gapsLT 60 0 [((10 : Nat), (1 : Nat)), (20, 2)] = true ∧
      (run 60 ((0, 0) :: [((10 : Nat), (1 : Nat)), (20, 2)])
          = [(lastAppendTime 0 [((10 : Nat), (1 : Nat)), (20, 2)] + 60,
              0 :: [((10 : Nat), (1 : Nat)), (20, 2)].map Prod.snd)] ∧
        run 60 [((0 : Nat), (0 : Nat)), (10, 1), (80, 2)] = [(70, [0, 1]), (140, [2])]) :=
  ⟨by decide, c5_burst_single_batch 60 0 0 [(10, 1), (20, 2)] (by decide)⟩

/-- C6: `on_message` performs exactly one `append` of exactly the received
message to the cluster manager — the pending batch is extended by that
message at the end, the timer is re-armed, and nothing is delivered — and a
stream of messages fed through `on_message` lands in the buffer in delivery
order. -/
theorem c6_on_message_appends_once {α : Type} (s : ClusterManager α) (m : α)
    (msgs : List α) :
    EmailerBot.on_message s m
        = (⟨s.window, s.pending ++ [m], s.gen + 1, Option.some (s.gen + 1)⟩,
           Option.none) ∧
      (processMessages s msgs).pending = s.pending ++ msgs :=
  ⟨rfl, processMessages_pending msgs s⟩

/-- C7: the debounce window defaults to 60: `configuration` parses the period
as 60 when the `clustering_period` option is absent (both as the bare value
and as the `period` entry of the returned dict), and `EmailerBot.__init__`
called without `clustering_period` constructs the buffer with window 60. -/
theorem c7_default_window_60 (e : EmailSection) (k : Option String) :
    configurationPeriod Option.none = 60 ∧
      getVal (configuration e Option.none k) "period" = ConfigValue.int 60 ∧
      (EmailerBot.init Nat : Except String (ClusterManager Nat))
        = Except.ok (initCM Nat 60) :=
  ⟨rfl, rfl, rfl⟩

/-- C8: for a non-empty batch, `send_email` produces the subject
`'{n} New Messages from Discord ({channels})'` — `n` the number of messages,
`channels` the distinct channel names — and a body that is the opening html,
then one segment per message in list order (each `<p>clean_content</p>`,
preceded by an author/channel/timestamp header exactly when the message is
the first one or its `(author, channel)` differs from its predecessor's),
then the closing html. -/
theorem c8_email_body_structure (css : String) (msgs : List Message)
    (h : msgs ≠ []) :
    EmailerBot.send_email css msgs
      = (toString msgs.length ++ " New Messages from Discord ("
            ++ String.intercalate ", " (channelsOf msgs) ++ ")",
         EmailerBot.start_html css ++ joinStr (segsSpec Option.none msgs)
            ++ EmailerBot.end_html) := by
  unfold EmailerBot.send_email subjectOf
  rw [bodyLoop_eq_segsSpec msgs Option.none]

theorem c8_witness :
    ([sampleMsg] ≠ []) ∧
      EmailerBot.send_email "" [sampleMsg]
        = (toString (List.length [sampleMsg]) ++ " New Messages from Discord ("
              ++ String.intercalate ", " (channelsOf [sampleMsg]) ++ ")",
           EmailerBot.start_html "" ++ joinStr (segsSpec Option.none [sampleMsg])
              ++ EmailerBot.end_html) :=
  ⟨by simp, c8_email_body_structure "" [sampleMsg] (by simp)⟩

/-- C9: when the stylesheet file is missing, `_start_html` raises the
exception from `open()` uncaught — it propagates through `send_email` (the
buffer's `onFlush` callback) — and the `except IOError` handler, which wraps
only the `read()` inside the successfully entered `with` block, never runs:
no execution of `_start_html` ever logs the CSS warning. -/
theorem c9_missing_stylesheet_raises (fs : String → Option String)
    (msgs : List Message) (h : fs "style.css" = Option.none) :
    EmailerBot.start_html_run "style.css" fs
        = Except.error (PyExc.ioError "style.css") ∧
      EmailerBot.send_email_run fs msgs = Except.error (PyExc.ioError "style.css") ∧
      ∀ (loc : String) (g : String → Option String) (r : String × Bool),
        EmailerBot.start_html_run loc g = Except.ok r → r.2 = false := by
  refine ⟨?_, ?_, ?_⟩
  · simp [EmailerBot.start_html_run, h]
  · simp [EmailerBot.send_email_run, EmailerBot.start_html_run, h]
  · intro loc g r hr
    cases hg : g loc with
    | none => simp [EmailerBot.start_html_run, hg] at hr
    | some c =>
      simp [EmailerBot.start_html_run, readOpened, hg] at hr
      simp [← hr]

theorem c9_witness :
    ((fun _ : String => (Option.none : Option String)) "style.css"
        = Option.none) ∧
      (EmailerBot.start_html_run "style.css" (fun _ => Option.none)
          = Except.error (PyExc.ioError "style.css") ∧
        EmailerBot.send_email_run (fun _ => Option.none) []
          = Except.error (PyExc.ioError "style.css") ∧
        ∀ (loc : String) (g : String → Option String) (r : String × Bool),
          EmailerBot.start_html_run loc g = Except.ok r → r.2 = false) :=
  ⟨rfl, c9_missing_stylesheet_raises (fun _ => Option.none) [] rfl⟩

/-- C10: whatever the parsed `[Email]` section holds, `configuration` always
inserts the `smtp_username` key (its value possibly `None`), so `main`'s
`'smtp_username' in config` test is always true and the bare-server `Emailer`
construction is unreachable: `main` always constructs the `Emailer` with all
four SMTP arguments. -/
theorem c10_smtp_username_always_present (e : EmailSection) (p : Option Int)
    (k : Option String) :
    hasKey (configuration e p k) "smtp_username" = true ∧
      mainEmailer (configuration e p k)
        = EmailerCall.fourArgs (ofOption e.smtp_server) (ofOption e.smtp_port)
            (ofOption e.smtp_username) (ofOption e.smtp_password) :=
  ⟨rfl, rfl⟩
